import Mathlib

/-!
Verification development for the vibe-coding-iterator repository.

The definitions below are a shallow embedding of the Python sources:
  src/contracts/events.py   (the Event data model)
  src/engine/bus.py         (the engine event bus)
  src/adapters/http/api.py  (the HTTP adapter: its module-local bus,
                             the SSE subscriber stream, the control endpoint,
                             and json.dumps serialization of events)
  src/engine/handlers.py    (agent_exchange, deterministic_patch)
  src/engine/run_loop.py    (RunLoop: start / pause / resume / step_forever)
  src/tools/dev_server.py   (the control listener)

Python dict events are embedded as a closed inductive type mirroring the
pydantic models of src/contracts/events.py (field `t` is the discriminator).
Timestamps come from `now_iso()` in the source; they are threaded as
explicit string parameters since they are environmental inputs.

The file `src/storage/events_log.py` is imported by run_loop.py but is not
present in the sources; per its interface in the spec, `append` appends one
serialized event line to the run's log file.  The log is therefore embedded
as the ordered sequence of `Action.append` effects the loop performs.
-/

namespace VCI

/-- Content parts of a prompt, mirroring ContentText / ContentImage in
src/contracts/events.py (ContentImage carries a string dict `image_url`). -/
inductive ContentPart where
  | text (text : String)
  | image (image_url : List (String × String))
  deriving DecidableEq, Repr

/-- The event envelope, mirroring the tagged union of src/contracts/events.py.
Every variant carries `ts` (timestamp string) and `run_id` (optional),
as in BaseEvent; the extra fields follow each pydantic subclass. -/
inductive Event where
  | runStarted (ts : String) (run_id : Option String)
  | iterationStarted (ts : String) (run_id : Option String) (n : Nat)
  | promptSent (ts : String) (run_id : Option String) (actor toTarget : String)
      (content : List ContentPart) (iteration : Nat)
  | responseReceived (ts : String) (run_id : Option String) (actor text : String)
      (iteration : Nat)
  | screenshotCaptured (ts : String) (run_id : Option String) (url : String)
      (iteration : Nat)
  | controlPaused (ts : String) (run_id : Option String)
  | controlResumed (ts : String) (run_id : Option String)
  | errorEv (ts : String) (run_id : Option String) (msg : String)
      (whereAt : Option String)
  deriving DecidableEq, Repr

/-- The `t` discriminator string of an event, as stored in the pydantic model. -/
def Event.kind : Event → String
  | .runStarted _ _ => "run.started"
  | .iterationStarted _ _ _ => "iteration.started"
  | .promptSent _ _ _ _ _ _ => "prompt.sent"
  | .responseReceived _ _ _ _ _ => "response.received"
  | .screenshotCaptured _ _ _ _ => "screenshot.captured"
  | .controlPaused _ _ => "control.paused"
  | .controlResumed _ _ => "control.resumed"
  | .errorEv _ _ _ _ => "error"

/-- The `run_id` field of an event. -/
def Event.runId : Event → Option String
  | .runStarted _ r => r
  | .iterationStarted _ r _ => r
  | .promptSent _ r _ _ _ _ => r
  | .responseReceived _ r _ _ _ => r
  | .screenshotCaptured _ r _ _ => r
  | .controlPaused _ r => r
  | .controlResumed _ r => r
  | .errorEv _ r _ _ => r

/-- Embedding of the dict mutation `ev["run_id"] = rid` performed by
RunLoop.step_forever on the two events returned by agent_exchange. -/
def Event.setRunId : Event → String → Event
  | .runStarted ts _, rid => .runStarted ts (some rid)
  | .iterationStarted ts _ n, rid => .iterationStarted ts (some rid) n
  | .promptSent ts _ a b c i, rid => .promptSent ts (some rid) a b c i
  | .responseReceived ts _ a x i, rid => .responseReceived ts (some rid) a x i
  | .screenshotCaptured ts _ u i, rid => .screenshotCaptured ts (some rid) u i
  | .controlPaused ts _, rid => .controlPaused ts (some rid)
  | .controlResumed ts _, rid => .controlResumed ts (some rid)
  | .errorEv ts _ m w, rid => .errorEv ts (some rid) m w

/-! ## src/engine/handlers.py -/

/-- Initial contents written by ensure_workspace_index when the workspace
index.html file does not yet exist (src/engine/handlers.py). -/
def initialIndexHtml : String :=
  "<!doctype html><title>Vibe</title><h1>Vibe</h1><div id=\x27app\x27></div>"

/-- ensure_workspace_index of src/engine/handlers.py, acting on the contents
of the run's workspace index.html file (`none` = file absent). -/
def ensure_workspace_index : Option String → String
  | none => initialIndexHtml
  | some c => c

/-- The iteration marker appended by deterministic_patch. -/
def iterMarker (iteration : Nat) : String :=
  "\n<!-- iter:" ++ toString iteration ++ " -->\n"

/-- Decidable check that one character list starts with another; used to
embed Python's substring operator. -/
def startsWithCheck : List Char → List Char → Bool
  | [], _ => true
  | _ :: _, [] => false
  | a :: as, b :: bs => a == b && startsWithCheck as bs

/-- Decidable substring occurrence on character lists; embedding of
Python's `in` operator on strings. -/
def substrCheck (needle : List Char) : List Char → Bool
  | [] => needle.isEmpty
  | c :: rest => startsWithCheck needle (c :: rest) || substrCheck needle rest

/-- Python `marker in html` on strings. -/
def strIn (needle hay : String) : Bool :=
  substrCheck needle.data hay.data

/-- deterministic_patch of src/engine/handlers.py, modelled on the contents
of workspace_dir(rid)/index.html (the only file it touches; the run id
argument of the source only selects that file).  Reads the (ensured)
contents and appends the iteration marker unless already present;
returns the resulting file contents. -/
def deterministic_patch (contents : Option String) (iteration : Nat) : String :=
  let html := ensure_workspace_index contents
  if strIn (iterMarker iteration) html then html
  else html ++ iterMarker iteration

/-- Python's `text = p.get("text","")` loop in agent_exchange: the last
text part wins, default empty string. -/
def lastTextOf (parts : List ContentPart) : String :=
  parts.foldl (fun acc p => match p with | .text t => t | .image _ => acc) ""

/-- agent_exchange of src/engine/handlers.py: builds the prompt.sent and
response.received events (run_id left unset, as in the source, where the
pydantic default is None).  The two timestamps are the now_iso() values
of the two constructions. -/
def agent_exchange (rid : String) (iteration : Nat) (route_to : String)
    (parts : List ContentPart) (ts1 ts2 : String) : Event × Event :=
  let text := lastTextOf parts
  let sent := Event.promptSent ts1 none
    (if route_to == "vision" then "code" else "vision") route_to parts iteration
  let reply := if text == "" then "ok" else text
  let recv := Event.responseReceived ts2 none route_to reply iteration
  (sent, recv)

/-! ## src/engine/run_loop.py -/

/-- The screenshot URL built by step_forever from snap_path:
f-string "/static/runs/rid/screenshots/snap_iteration.png". -/
def snapUrl (rid : String) (iteration : Nat) : String :=
  "/static/runs/" ++ rid ++ "/screenshots/snap_" ++ toString iteration ++ ".png"

/-- The mutable state of the RunLoop class (src/engine/run_loop.py). -/
structure RunLoop where
  paused : Bool
  iteration : Nat
  run_id : Option String
  deriving DecidableEq, Repr

/-- RunLoop.__init__: paused, iteration counter 0, no run id. -/
def RunLoop.init : RunLoop := ⟨true, 0, none⟩

/-- RunLoop.pause: sets the paused flag. -/
def RunLoop.pause (st : RunLoop) : RunLoop := { st with paused := true }

/-- RunLoop.resume: clears the paused flag. -/
def RunLoop.resume (st : RunLoop) : RunLoop := { st with paused := false }

/-- One observable effect of the loop: an events_log append for a run,
or a bus publish.  The per-run log contents are exactly the sequence of
append actions for that run id, in order. -/
inductive Action where
  | append (rid : String) (ev : Event)
  | publish (ev : Event)
  deriving DecidableEq, Repr

/-- The event carried by an action. -/
def Action.event : Action → Event
  | .append _ ev => ev
  | .publish ev => ev

/-- RunLoop.start: store the freshly minted run id (mk_run_id() in the
source; here a parameter, since it is a timestamp-plus-random value from
the environment), then log-append and publish one run.started event.
The source touches no other field of self. -/
def RunLoop.start (st : RunLoop) (rid ts : String) : RunLoop × List Action :=
  let ev := Event.runStarted ts (some rid)
  ({ st with run_id := some rid }, [Action.append rid ev, Action.publish ev])

/-- The step of step_forever at which an exception may be raised: the
model-exchange await, the deterministic_patch call, or the screenshot
capture (a raising events_log append behaves like the step it occurs in,
since the exception propagates identically). -/
inductive Failure where
  | exchange
  | patch
  | screenshot
  deriving DecidableEq, Repr

/-- Environmental inputs of one pass of the while-loop body of
step_forever: the now_iso() timestamps of the four events constructed in
it, and which collaborator call (if any) raises. -/
structure TickEnv where
  ts1 : String
  ts2 : String
  ts3 : String
  ts4 : String
  fail : Option Failure
  deriving DecidableEq, Repr

/-- Result of one pass of the loop body: the new loop state, the trace of
log/publish effects performed, and the exception (if one escaped). -/
structure StepOut where
  st : RunLoop
  tr : List Action
  err : Option Failure
  deriving DecidableEq, Repr

/-- One pass of the while-loop body of RunLoop.step_forever.  When paused,
the body does nothing.  Otherwise it increments the counter, emits
iteration.started; awaits agent_exchange (route_to "code", one literal
text part "iterate"), stamps run_id on both returned events and emits
each; applies the patch; captures the screenshot; emits
screenshot.captured.  An exception at a collaborator call aborts the body
right there, keeping the effects already performed.  The source asserts
run_id is set on entry to step_forever; a state with run_id none is not
reachable here and getD supplies a dummy. -/
def RunLoop.tick (st : RunLoop) (env : TickEnv) : StepOut :=
  if st.paused then ⟨st, [], none⟩
  else
    let it := st.iteration + 1
    let st1 : RunLoop := { st with iteration := it }
    let rid := st.run_id.getD ""
    let iEv := Event.iterationStarted env.ts1 (some rid) it
    let tr1 := [Action.append rid iEv, Action.publish iEv]
    if env.fail = some Failure.exchange then ⟨st1, tr1, some Failure.exchange⟩
    else
      let pr := agent_exchange rid it "code" [ContentPart.text "iterate"] env.ts2 env.ts3
      let sent := pr.1.setRunId rid
      let recv := pr.2.setRunId rid
      let tr2 := tr1 ++ [Action.append rid sent, Action.publish sent,
                         Action.append rid recv, Action.publish recv]
      if env.fail = some Failure.patch then ⟨st1, tr2, some Failure.patch⟩
      else if env.fail = some Failure.screenshot then ⟨st1, tr2, some Failure.screenshot⟩
      else
        let sEv := Event.screenshotCaptured env.ts4 (some rid) (snapUrl rid it) it
        ⟨st1, tr2 ++ [Action.append rid sEv, Action.publish sEv], none⟩

/-- RunLoop.step_forever driven for a finite schedule of loop passes: runs
ticks in order, accumulating effects; an escaping exception terminates the
coroutine, so later passes never run (there is no try/except in the
source loop). -/
def RunLoop.run (st : RunLoop) : List TickEnv → StepOut
  | [] => ⟨st, [], none⟩
  | env :: rest =>
    let o := RunLoop.tick st env
    match o.err with
    | some f => ⟨o.st, o.tr, some f⟩
    | none =>
      let r := RunLoop.run o.st rest
      ⟨r.st, o.tr ++ r.tr, r.err⟩

/-- The per-run log contents determined by a trace: the appended events,
in order (events_log.append writes one line per call). -/
def logOf (tr : List Action) : List Event :=
  tr.filterMap fun a => match a with | .append _ ev => some ev | .publish _ => none

/-- The publishes of a trace, in order. -/
def pubOf (tr : List Action) : List Event :=
  tr.filterMap fun a => match a with | .publish ev => some ev | .append _ _ => none

/-! ## src/engine/bus.py and the subscriber half of src/adapters/http/api.py

Both modules hold a module-level set `_subs` of per-subscriber
asyncio.Queues with an identical `publish` (put the event on every
queue).  A bus is embedded as the list of subscriber queues, each queue
the list of its pending (not yet consumed) events in arrival order. -/

/-- publish(ev) of src/engine/bus.py and of src/adapters/http/api.py:
puts the event on every registered subscriber queue. -/
def busPublish (qs : List (List Event)) (ev : Event) : List (List Event) :=
  qs.map fun q => q ++ [ev]

/-- subscribe() registering step: adds a fresh empty queue to the set.
The new subscriber's queue is the last entry. -/
def busSubscribe (qs : List (List Event)) : List (List Event) :=
  qs ++ [[]]

/-- A message yielded to an SSE consumer by the api.py subscribe
generator: the synthetic bootstrap dict with t "hello" and ts
"bootstrap", or a bus event. -/
inductive Wire where
  | hello
  | ev (e : Event)
  deriving DecidableEq, Repr

/-- The sequence the subscribe() generator of src/adapters/http/api.py
yields to a consumer that drains a queue q: first the bootstrap hello
dict, then each queued event in arrival order. -/
def apiSubscriberStream (q : List Event) : List Wire :=
  Wire.hello :: q.map Wire.ev

/-! ## src/tools/dev_server.py control listener and the control endpoint -/

/-- The whole-process state relevant to control flow: the RunLoop, the
HTTP adapter module's subscriber set (api.py `_subs`), and the engine
bus's subscriber set (engine/bus.py `_subs`).  These are two distinct
module-level sets in the source. -/
structure DevSystem where
  rl : RunLoop
  apiBus : List (List Event)
  engBus : List (List Event)
  deriving DecidableEq, Repr

/-- POST /api/control of src/adapters/http/api.py: action "pause"
publishes control.paused, any other action publishes control.resumed —
to the api module's own subscriber set (its module-local publish). -/
def apiControl (sys : DevSystem) (action ts : String) : DevSystem :=
  if action == "pause" then
    { sys with apiBus := busPublish sys.apiBus (Event.controlPaused ts none) }
  else
    { sys with apiBus := busPublish sys.apiBus (Event.controlResumed ts none) }

/-- One event handled by control_listener of src/tools/dev_server.py:
on t "control.pause" or "control.paused" call loop.pause(); on
"control.resume" or "control.resumed" call loop.resume(); else ignore. -/
def listenerStep (st : RunLoop) (ev : Event) : RunLoop :=
  let t := ev.kind
  if t == "control.pause" || t == "control.paused" then st.pause
  else if t == "control.resume" || t == "control.resumed" then st.resume
  else st

/-- The control listener consuming, in order, the events currently
pending on its engine-bus queue. -/
def listenerDrain (st : RunLoop) (q : List Event) : RunLoop :=
  q.foldl listenerStep st

/-! ## json.dumps serialization used by the /api/events endpoint

The endpoint yields `json.dumps(ev)` for each message.  json.dumps with
default arguments separates items with a comma and one space and keys
from values with a colon and one space, and keeps dict insertion order;
pydantic model_dump emits BaseEvent's fields t, ts, run_id first and the
subclass fields after, in declaration order.  The serializer below is
json.dumps specialized to those dicts (string escaping restricted to the
escapes that can occur in the ASCII payloads this system produces). -/

/-- JSON string escaping of one character, as json.dumps performs it on
the character set the system emits. -/
def escChar (c : Char) : String :=
  if c = '\"' then "\\\"" else if c = '\\' then "\\\\"
  else if c = '\n' then "\\n" else if c = '\t' then "\\t"
  else if c = '\r' then "\\r" else String.singleton c

/-- JSON string escaping. -/
def escape (s : String) : String :=
  s.data.foldl (fun acc c => acc ++ escChar c) ""

/-- A quoted JSON string literal. -/
def jstr (s : String) : String := "\"" ++ escape s ++ "\""

/-- A nullable string field value: None serializes as null. -/
def jopt : Option String → String
  | none => "null"
  | some s => jstr s

/-- One key-value pair with json.dumps's default key separator
(colon followed by one space). -/
def jfield (k v : String) : String := jstr k ++ ": " ++ v

/-- Joins serialized fields with json.dumps's default item separator
(comma followed by one space). -/
def joinFields : List String → String
  | [] => ""
  | [f] => f
  | f :: rest => f ++ ", " ++ joinFields rest

/-- A serialized JSON object. -/
def jobj (fields : List String) : String :=
  "\x7b" ++ joinFields fields ++ "\x7d"

/-- json.dumps of a model_dump of one content part (ContentText or
ContentImage of src/contracts/events.py). -/
def ContentPart.dumps : ContentPart → String
  | .text t => jobj [jfield "type" (jstr "text"), jfield "text" (jstr t)]
  | .image kvs => jobj [jfield "type" (jstr "image_url"),
      jfield "image_url" (jobj (kvs.map fun kv => jfield kv.1 (jstr kv.2)))]

/-- A serialized JSON list. -/
def jarr (items : List String) : String :=
  "[" ++ joinFields items ++ "]"

/-- json.dumps of the model_dump dict of an event, field for field as
pydantic emits them. -/
def Event.dumps : Event → String
  | .runStarted ts rid =>
      jobj [jfield "t" (jstr "run.started"), jfield "ts" (jstr ts),
            jfield "run_id" (jopt rid)]
  | .iterationStarted ts rid n =>
      jobj [jfield "t" (jstr "iteration.started"), jfield "ts" (jstr ts),
            jfield "run_id" (jopt rid), jfield "n" (toString n)]
  | .promptSent ts rid actor toT content iteration =>
      jobj [jfield "t" (jstr "prompt.sent"), jfield "ts" (jstr ts),
            jfield "run_id" (jopt rid), jfield "actor" (jstr actor),
            jfield "to" (jstr toT),
            jfield "content" (jarr (content.map ContentPart.dumps)),
            jfield "iteration" (toString iteration)]
  | .responseReceived ts rid actor text iteration =>
      jobj [jfield "t" (jstr "response.received"), jfield "ts" (jstr ts),
            jfield "run_id" (jopt rid), jfield "actor" (jstr actor),
            jfield "text" (jstr text), jfield "iteration" (toString iteration)]
  | .screenshotCaptured ts rid url iteration =>
      jobj [jfield "t" (jstr "screenshot.captured"), jfield "ts" (jstr ts),
            jfield "run_id" (jopt rid), jfield "url" (jstr url),
            jfield "iteration" (toString iteration)]
  | .controlPaused ts rid =>
      jobj [jfield "t" (jstr "control.paused"), jfield "ts" (jstr ts),
            jfield "run_id" (jopt rid)]
  | .controlResumed ts rid =>
      jobj [jfield "t" (jstr "control.resumed"), jfield "ts" (jstr ts),
            jfield "run_id" (jopt rid)]
  | .errorEv ts rid msg whereAt =>
      jobj [jfield "t" (jstr "error"), jfield "ts" (jstr ts),
            jfield "run_id" (jopt rid), jfield "msg" (jstr msg),
            jfield "where" (jopt whereAt)]

/-- The data payload of the SSE message the /api/events endpoint emits for
one bus event: json.dumps of the event dict. -/
def wireData (ev : Event) : String := Event.dumps ev

/-- Whether a character occurs in a string. -/
def hasChar (s : String) (c : Char) : Bool := s.data.contains c

/-- Checker for the log-before-publish discipline: scans a trace keeping
the multiset of events appended so far and demands that every published
event was appended earlier in the trace. -/
def apbpGo (seen : List Event) : List Action → Bool
  | [] => true
  | .append _ ev :: tr => apbpGo (ev :: seen) tr
  | .publish ev :: tr => if ev ∈ seen then apbpGo seen tr else false

/-- A trace respects the durability boundary when every publish is
preceded by an append of the same event. -/
def appendBeforePublish (tr : List Action) : Bool := apbpGo [] tr

/-- The iteration ordinals of the iteration.started events of a log, in
log order. -/
def iterOrdinals (l : List Event) : List Nat :=
  l.filterMap fun e => match e with
    | .iterationStarted _ _ n => some n
    | _ => none

/-- The log contents promised by the spec for a sequence of completed
iterations starting after ordinal `i`: per iteration, in order, exactly
one iteration.started, prompt.sent, response.received and
screenshot.captured, all with the same ordinal, before the next ordinal.
Stated from the spec's testable property, to be compared with the log
the embedded loop produces. -/
def specLog (rid : String) : Nat → List TickEnv → List Event
  | _, [] => []
  | i, e :: es =>
    Event.iterationStarted e.ts1 (some rid) (i+1) ::
    Event.promptSent e.ts2 (some rid) "vision" "code" [ContentPart.text "iterate"] (i+1) ::
    Event.responseReceived e.ts3 (some rid) "code" "iterate" (i+1) ::
    Event.screenshotCaptured e.ts4 (some rid) (snapUrl rid (i+1)) (i+1) ::
    specLog rid (i+1) es

/-- Whether every event of a trace carries the given run id. -/
def allRunId (tr : List Action) (rid : String) : Bool :=
  tr.all fun a => a.event.runId == some rid

/-- Whether a trace contains no event of kind error. -/
def noErrorEvents (tr : List Action) : Bool :=
  tr.all fun a => a.event.kind != "error"

/-! ## Helper lemmas -/

theorem strData_append (a b : String) : (a ++ b).data = a.data ++ b.data :=
  String.data_append a b

theorem startsWithCheck_refl (l : List Char) : startsWithCheck l l = true := by
  induction l with
  | nil => rfl
  | cons c cs ih => simp [startsWithCheck, ih]

theorem substrCheck_append_self (n : List Char) :
    ∀ h : List Char, substrCheck n (h ++ n) = true := by
  intro h
  induction h with
  | nil =>
    cases n with
    | nil => rfl
    | cons c cs => simp [substrCheck, startsWithCheck_refl]
  | cons x xs ih => simp [substrCheck, ih]

theorem strIn_append_self (pre m : String) : strIn m (pre ++ m) = true := by
  unfold strIn
  rw [strData_append]
  exact substrCheck_append_self m.data pre.data

end VCI

namespace VCI

theorem patch_marked_noop (c : String) (n : Nat) (h : strIn (iterMarker n) c = true) :
    deterministic_patch (some c) n = c := by
  unfold deterministic_patch
  simp [ensure_workspace_index, h]

/-- C9.  Applying deterministic_patch twice for the same iteration leaves
the workspace index.html contents identical to applying it once: the
marker test skips the append when the iteration fingerprint is already
present. -/
theorem C9_patch_idempotent (contents : Option String) (n : Nat) :
    deterministic_patch (some (deterministic_patch contents n)) n =
      deterministic_patch contents n := by
  by_cases h : strIn (iterMarker n) (ensure_workspace_index contents) = true
  · have h1 : deterministic_patch contents n = ensure_workspace_index contents := by
      unfold deterministic_patch; simp [h]
    rw [h1]
    exact patch_marked_noop _ _ h
  · simp only [Bool.not_eq_true] at h
    have h1 : deterministic_patch contents n =
        ensure_workspace_index contents ++ iterMarker n := by
      unfold deterministic_patch; simp [h]
    rw [h1]
    exact patch_marked_noop _ _ (strIn_append_self _ _)

/-- C6 counterexample.  start() does not reset the iteration counter: on a
loop state whose counter is 5, the counter still reads 5 after start(),
not 0 as the claim requires of every state. -/
theorem C6_counterexample :
    ¬ ((RunLoop.start ⟨true, 5, some "r0"⟩ "r1" "t1").1.iteration = 0) := by
  decide

/-- C6 amended.  start() stores the freshly minted run identity and emits
exactly one run.started event carrying it, first appended to the log and
then published; the paused flag and the iteration counter are left
unchanged (so the counter is 0 exactly when start is called on a freshly
constructed loop, the only use in the source). -/
theorem C6_start_amended (st : RunLoop) (rid ts : String) :
    (RunLoop.start st rid ts).1.run_id = some rid ∧
    (RunLoop.start st rid ts).1.iteration = st.iteration ∧
    (RunLoop.start st rid ts).1.paused = st.paused ∧
    (RunLoop.start st rid ts).2 =
      [Action.append rid (Event.runStarted ts (some rid)),
       Action.publish (Event.runStarted ts (some rid))] ∧
    RunLoop.init.iteration = 0 :=
  ⟨rfl, rfl, rfl, rfl, rfl⟩

theorem run_paused (envs : List TickEnv) :
    ∀ st : RunLoop, st.paused = true → RunLoop.run st envs = ⟨st, [], none⟩ := by
  induction envs with
  | nil => intro st _; rfl
  | cons e es ih =>
    intro st h
    have ht : RunLoop.tick st e = ⟨st, [], none⟩ := by
      unfold RunLoop.tick
      simp [h]
    simp [RunLoop.run, ht, ih st h]

/-- C8.  A freshly constructed loop is paused, start() keeps it paused,
and while paused ticks are no-ops: the state (counter and run identity
included) is unchanged and no log append or publish happens, so any
number of paused ticks adds zero log lines beyond the run.started that
start() appended. -/
theorem C8_paused_ticks_noop (rid ts : String) (st : RunLoop) (env : TickEnv)
    (envs : List TickEnv) (h : st.paused = true) :
    (RunLoop.start RunLoop.init rid ts).1.paused = true ∧
    logOf (RunLoop.start RunLoop.init rid ts).2 = [Event.runStarted ts (some rid)] ∧
    RunLoop.tick st env = ⟨st, [], none⟩ ∧
    RunLoop.run st envs = ⟨st, [], none⟩ := by
  refine ⟨rfl, rfl, ?_, run_paused envs st h⟩
  unfold RunLoop.tick
  simp [h]

/-- C8 witness at a concrete paused state and two paused ticks. -/
theorem C8_paused_ticks_noop_witness :
    (RunLoop.start RunLoop.init "r" "t0").1.paused = true ∧
    logOf (RunLoop.start RunLoop.init "r" "t0").2 = [Event.runStarted "t0" (some "r")] ∧
    RunLoop.tick ⟨true, 0, some "r"⟩ ⟨"a", "b", "c", "d", none⟩ =
      ⟨⟨true, 0, some "r"⟩, [], none⟩ ∧
    RunLoop.run ⟨true, 0, some "r"⟩
        [⟨"a", "b", "c", "d", none⟩, ⟨"e", "f", "g", "h", none⟩] =
      ⟨⟨true, 0, some "r"⟩, [], none⟩ :=
  C8_paused_ticks_noop "r" "t0" ⟨true, 0, some "r"⟩ ⟨"a", "b", "c", "d", none⟩
    [⟨"a", "b", "c", "d", none⟩, ⟨"e", "f", "g", "h", none⟩] rfl

/-! ## Log-before-publish (C3) -/

theorem apbpGo_append (b : List Action) (hb : ∀ s, apbpGo s b = true) :
    ∀ (a : List Action) (seen : List Event),
      apbpGo seen a = true → apbpGo seen (a ++ b) = true := by
  intro a
  induction a with
  | nil => intro seen _; exact hb seen
  | cons x xs ih =>
    intro seen h
    cases x with
    | append rid ev =>
      simp only [List.cons_append, apbpGo] at h ⊢
      exact ih _ h
    | publish ev =>
      simp only [List.cons_append, apbpGo] at h ⊢
      by_cases hm : ev ∈ seen
      · simp only [if_pos hm] at h ⊢
        exact ih _ h
      · simp [if_neg hm] at h

theorem tick_apbp (st : RunLoop) (env : TickEnv) :
    ∀ seen, apbpGo seen (RunLoop.tick st env).tr = true := by
  intro seen
  unfold RunLoop.tick
  by_cases hp : st.paused = true
  · simp [hp, apbpGo]
  · simp only [Bool.not_eq_true] at hp
    rcases hfl : env.fail with _ | f
    · simp [hp, hfl, apbpGo, List.mem_cons]
    · cases f <;> simp [hp, hfl, apbpGo, List.mem_cons]

theorem run_apbp (envs : List TickEnv) :
    ∀ (st : RunLoop) (seen : List Event),
      apbpGo seen (RunLoop.run st envs).tr = true := by
  induction envs with
  | nil => intro st seen; rfl
  | cons e es ih =>
    intro st seen
    rcases herr : (RunLoop.tick st e).err with _ | f
    · simp only [RunLoop.run, herr]
      exact apbpGo_append _ (fun s => ih _ s) _ _ (tick_apbp st e seen)
    · simp only [RunLoop.run, herr]
      exact tick_apbp st e seen

/-- C3.  Every event the loop emits is appended to the run's log strictly
before it is published to the bus: over the whole trace of start()
followed by any schedule of loop passes (from any loop state, failures
included), each publish is preceded by an append of that same event, so
no event is published without first having been appended. -/
theorem C3_append_before_publish (st st2 : RunLoop) (rid ts : String)
    (envs : List TickEnv) :
    appendBeforePublish
      ((RunLoop.start st rid ts).2 ++ (RunLoop.run st2 envs).tr) = true := by
  unfold appendBeforePublish RunLoop.start
  simp [apbpGo]
  exact run_apbp envs st2 _

/-! ## Completed iterations (C4) -/

theorem tick_ok (rid : String) (i : Nat) (e : TickEnv) (hf : e.fail = none) :
    RunLoop.tick ⟨false, i, some rid⟩ e =
      ⟨⟨false, i + 1, some rid⟩,
       [Action.append rid (Event.iterationStarted e.ts1 (some rid) (i+1)),
        Action.publish (Event.iterationStarted e.ts1 (some rid) (i+1)),
        Action.append rid (Event.promptSent e.ts2 (some rid) "vision" "code"
          [ContentPart.text "iterate"] (i+1)),
        Action.publish (Event.promptSent e.ts2 (some rid) "vision" "code"
          [ContentPart.text "iterate"] (i+1)),
        Action.append rid (Event.responseReceived e.ts3 (some rid) "code" "iterate" (i+1)),
        Action.publish (Event.responseReceived e.ts3 (some rid) "code" "iterate" (i+1)),
        Action.append rid (Event.screenshotCaptured e.ts4 (some rid) (snapUrl rid (i+1)) (i+1)),
        Action.publish (Event.screenshotCaptured e.ts4 (some rid) (snapUrl rid (i+1)) (i+1))],
       none⟩ := by
  unfold RunLoop.tick
  simp [hf, agent_exchange, lastTextOf, Event.setRunId]

theorem run_ok (rid : String) (envs : List TickEnv) (h : ∀ e ∈ envs, e.fail = none) :
    ∀ i : Nat,
      logOf (RunLoop.run ⟨false, i, some rid⟩ envs).tr = specLog rid i envs ∧
      (RunLoop.run ⟨false, i, some rid⟩ envs).err = none := by
  induction envs with
  | nil => intro i; exact ⟨rfl, rfl⟩
  | cons e es ih =>
    intro i
    have hf : e.fail = none := h e (List.mem_cons_self e es)
    have hes : ∀ x ∈ es, x.fail = none := fun x hx => h x (List.mem_cons_of_mem e hx)
    have ht := tick_ok rid i e hf
    have ihe := ih hes (i + 1)
    constructor
    · simp only [RunLoop.run, ht, logOf, List.filterMap_append, specLog]
      simp only [logOf] at ihe
      simp [ihe.1, List.filterMap]
    · simp only [RunLoop.run, ht]
      exact ihe.2

theorem specLog_ordinals (rid : String) (envs : List TickEnv) :
    ∀ i, iterOrdinals (specLog rid i envs) = List.range' (i+1) envs.length := by
  induction envs with
  | nil => intro i; rfl
  | cons e es ih =>
    intro i
    simp only [specLog, iterOrdinals, List.filterMap] at ih ⊢
    simp [List.range', ih (i+1)]

/-- C4.  From a running loop at counter 0, a schedule of passes in which
every iteration completes produces exactly, per iteration and in order,
one iteration.started, one prompt.sent, one response.received and one
screenshot.captured, all carrying that iteration's ordinal, before any
event of the next ordinal; the ordinals of the iteration.started events
are contiguous from 1. -/
theorem C4_completed_iterations (rid : String) (envs : List TickEnv)
    (h : ∀ e ∈ envs, e.fail = none) :
    logOf (RunLoop.run ⟨false, 0, some rid⟩ envs).tr = specLog rid 0 envs ∧
    iterOrdinals (logOf (RunLoop.run ⟨false, 0, some rid⟩ envs).tr) =
      List.range' 1 envs.length := by
  have hr := run_ok rid envs h 0
  exact ⟨hr.1, by rw [hr.1]; exact specLog_ordinals rid envs 0⟩

/-- C4 witness: two completed iterations from a concrete state. -/
theorem C4_completed_iterations_witness :
    logOf (RunLoop.run ⟨false, 0, some "r"⟩
        [⟨"a1", "a2", "a3", "a4", none⟩, ⟨"b1", "b2", "b3", "b4", none⟩]).tr =
      specLog "r" 0 [⟨"a1", "a2", "a3", "a4", none⟩, ⟨"b1", "b2", "b3", "b4", none⟩] ∧
    iterOrdinals (logOf (RunLoop.run ⟨false, 0, some "r"⟩
        [⟨"a1", "a2", "a3", "a4", none⟩, ⟨"b1", "b2", "b3", "b4", none⟩]).tr) =
      List.range' 1 2 :=
  C4_completed_iterations "r"
    [⟨"a1", "a2", "a3", "a4", none⟩, ⟨"b1", "b2", "b3", "b4", none⟩]
    (by intro e he; fin_cases he <;> rfl)

/-! ## Run identity on every event (C10) -/

theorem tick_run_id (st : RunLoop) (env : TickEnv) (rid : String)
    (h : st.run_id = some rid) :
    allRunId (RunLoop.tick st env).tr rid = true ∧
    (RunLoop.tick st env).st.run_id = some rid := by
  unfold RunLoop.tick
  by_cases hp : st.paused = true
  · simp [hp, allRunId, h]
  · simp only [Bool.not_eq_true] at hp
    rcases hfl : env.fail with _ | f
    · simp [hp, hfl, h, allRunId, Action.event, Event.runId,
        agent_exchange, Event.setRunId]
    · cases f <;>
        simp [hp, hfl, h, allRunId, Action.event, Event.runId,
          agent_exchange, Event.setRunId]

theorem run_run_id (envs : List TickEnv) :
    ∀ (st : RunLoop) (rid : String), st.run_id = some rid →
      allRunId (RunLoop.run st envs).tr rid = true := by
  induction envs with
  | nil => intro st rid _; rfl
  | cons e es ih =>
    intro st rid h
    have ht := tick_run_id st e rid h
    rcases herr : (RunLoop.tick st e).err with _ | f
    · simp only [RunLoop.run, herr]
      simp only [allRunId, List.all_append, Bool.and_eq_true] at ht ⊢
      exact ⟨ht.1, ih _ rid ht.2⟩
    · simp only [RunLoop.run, herr]
      exact ht.1

/-- C10.  agent_exchange builds prompt.sent and response.received with
run_id unset; the loop stamps the run identity before logging or
publishing, and every event appended or published by start() and by any
schedule of loop passes carries exactly the run id minted at start. -/
theorem C10_run_id_stamped (st : RunLoop) (rid ts : String) (env : TickEnv)
    (envs : List TickEnv) (it : Nat) (rt : String) (parts : List ContentPart)
    (t2 t3 : String) (h : st.run_id = some rid) :
    (agent_exchange rid it rt parts t2 t3).1.runId = none ∧
    (agent_exchange rid it rt parts t2 t3).2.runId = none ∧
    allRunId (RunLoop.start st rid ts).2 rid = true ∧
    allRunId (RunLoop.tick st env).tr rid = true ∧
    allRunId (RunLoop.run st envs).tr rid = true := by
  refine ⟨rfl, rfl, ?_, (tick_run_id st env rid h).1, run_run_id envs st rid h⟩
  simp [RunLoop.start, allRunId, Action.event, Event.runId]

/-- C10 witness at a concrete running state and one-pass schedule. -/
theorem C10_run_id_stamped_witness :
    (agent_exchange "r" 1 "code" [ContentPart.text "iterate"] "x" "y").1.runId = none ∧
    (agent_exchange "r" 1 "code" [ContentPart.text "iterate"] "x" "y").2.runId = none ∧
    allRunId (RunLoop.start ⟨false, 0, some "r"⟩ "r" "t0").2 "r" = true ∧
    allRunId (RunLoop.tick ⟨false, 0, some "r"⟩ ⟨"a", "b", "c", "d", none⟩).tr "r" = true ∧
    allRunId (RunLoop.run ⟨false, 0, some "r"⟩ [⟨"a", "b", "c", "d", none⟩]).tr "r" = true :=
  C10_run_id_stamped ⟨false, 0, some "r"⟩ "r" "t0" ⟨"a", "b", "c", "d", none⟩
    [⟨"a", "b", "c", "d", none⟩] 1 "code" [ContentPart.text "iterate"] "x" "y" rfl

/-! ## Exceptions inside a loop pass (C1) -/

/-- Concrete loop state for the C1 scenario: running, counter 0. -/
def stC1 : RunLoop := ⟨false, 0, some "r"⟩

/-- A loop pass whose screenshot capture raises. -/
def envFailShot : TickEnv := ⟨"t1", "t2", "t3", "t4", some Failure.screenshot⟩

/-- A loop pass in which every step succeeds. -/
def envOkC1 : TickEnv := ⟨"u1", "u2", "u3", "u4", none⟩

/-- C1 counterexample.  With the screenshot collaborator throwing on the
first pass, the loop logs iteration.started, prompt.sent and
response.received for ordinal 1 and then the exception escapes
step_forever: no error event is logged or published anywhere in the
trace, and the scheduled second pass never runs (no ordinal 2), contrary
to the claim that one error event is emitted and the loop remains
running. -/
theorem C1_counterexample :
    (RunLoop.run stC1 [envFailShot, envOkC1]).err = some Failure.screenshot ∧
    ((RunLoop.run stC1 [envFailShot, envOkC1]).tr.filter
        (fun a => a.event.kind == "error")) = [] ∧
    iterOrdinals (logOf (RunLoop.run stC1 [envFailShot, envOkC1]).tr) = [1] ∧
    logOf (RunLoop.run stC1 [envFailShot, envOkC1]).tr =
      [Event.iterationStarted "t1" (some "r") 1,
       Event.promptSent "t2" (some "r") "vision" "code" [ContentPart.text "iterate"] 1,
       Event.responseReceived "t3" (some "r") "code" "iterate" 1] := by
  refine ⟨rfl, rfl, rfl, rfl⟩

theorem tick_no_error (st : RunLoop) (env : TickEnv) :
    noErrorEvents (RunLoop.tick st env).tr = true := by
  unfold RunLoop.tick
  by_cases hp : st.paused = true
  · simp [hp, noErrorEvents]
  · simp only [Bool.not_eq_true] at hp
    rcases hfl : env.fail with _ | f
    · simp [hp, hfl, noErrorEvents, Action.event, Event.kind,
        agent_exchange, Event.setRunId]
    · cases f <;>
        simp [hp, hfl, noErrorEvents, Action.event, Event.kind,
          agent_exchange, Event.setRunId]

/-- C1 amended.  If a step of a loop pass raises, the events already
emitted for that iteration stand, no error event is ever logged or
published (the loop constructs none), and the exception escapes
step_forever, so the whole run ends with that pass: later scheduled
passes contribute nothing, instead of the loop remaining running. -/
theorem C1_exception_amended (st : RunLoop) (env : TickEnv)
    (rest : List TickEnv) (f : Failure) (h : (RunLoop.tick st env).err = some f) :
    RunLoop.run st (env :: rest) =
      ⟨(RunLoop.tick st env).st, (RunLoop.tick st env).tr, some f⟩ ∧
    noErrorEvents (RunLoop.tick st env).tr = true := by
  refine ⟨?_, tick_no_error st env⟩
  simp only [RunLoop.run, h]

/-- C1 amended witness: the concrete screenshot-failure scenario. -/
theorem C1_exception_amended_witness :
    RunLoop.run stC1 (envFailShot :: [envOkC1]) =
      ⟨(RunLoop.tick stC1 envFailShot).st, (RunLoop.tick stC1 envFailShot).tr,
       some Failure.screenshot⟩ ∧
    noErrorEvents (RunLoop.tick stC1 envFailShot).tr = true :=
  C1_exception_amended stC1 envFailShot [envOkC1] Failure.screenshot rfl

/-! ## Control path (C2) -/

/-- Concrete process state for the C2 scenario: loop running, one SSE
subscriber on the HTTP adapter's set, the control listener's queue on
the engine bus. -/
def sysC2 : DevSystem := ⟨⟨false, 0, some "r"⟩, [[]], [[]]⟩

/-- C2 counterexample.  A pause command through POST /api/control does
publish a control.paused event, but onto the HTTP adapter module's own
subscriber set; the engine bus the control listener subscribes to
receives nothing, so draining the listener's queue leaves the running
loop's paused flag false — the command does not toggle the loop. -/
theorem C2_counterexample :
    (apiControl sysC2 "pause" "t0").apiBus = [[Event.controlPaused "t0" none]] ∧
    (apiControl sysC2 "pause" "t0").engBus = [[]] ∧
    (listenerDrain (apiControl sysC2 "pause" "t0").rl
        ((apiControl sysC2 "pause" "t0").engBus.getD 0 [])).paused = false := by
  refine ⟨rfl, rfl, rfl⟩

/-- C2 amended.  The inbound command endpoint publishes control.paused
(for pause) or control.resumed (for any other action) onto the HTTP
adapter's module-local subscriber set only: the engine bus and the loop
state are untouched, so endpoint commands never reach the control
listener.  The listener itself, when a control event does arrive on its
engine-bus queue, calls pause() on control.paused and resume() on
control.resumed. -/
theorem C2_control_amended (sys : DevSystem) (ts : String) (st : RunLoop) :
    (apiControl sys "pause" ts).engBus = sys.engBus ∧
    (apiControl sys "pause" ts).rl = sys.rl ∧
    (apiControl sys "pause" ts).apiBus =
      busPublish sys.apiBus (Event.controlPaused ts none) ∧
    (apiControl sys "resume" ts).engBus = sys.engBus ∧
    (apiControl sys "resume" ts).rl = sys.rl ∧
    (apiControl sys "resume" ts).apiBus =
      busPublish sys.apiBus (Event.controlResumed ts none) ∧
    listenerStep st (Event.controlPaused ts none) = st.pause ∧
    listenerStep st (Event.controlResumed ts none) = st.resume ∧
    (listenerStep st (Event.controlPaused ts none)).paused = true ∧
    (listenerStep st (Event.controlResumed ts none)).paused = false := by
  refine ⟨rfl, rfl, rfl, rfl, rfl, rfl, rfl, rfl, rfl, rfl⟩

/-! ## Live-stream subscription (C5) -/

theorem busPublish_foldl (post : List Event) :
    ∀ (bus : List (List Event)) (q : List Event),
      List.foldl busPublish (bus ++ [q]) post =
        List.foldl busPublish bus post ++ [q ++ post] := by
  induction post with
  | nil => intro bus q; simp
  | cons e es ih =>
    intro bus q
    simp only [List.foldl_cons]
    have hb : busPublish (bus ++ [q]) e = busPublish bus e ++ [q ++ [e]] := by
      simp [busPublish]
    rw [hb, ih]
    simp

/-- C5.  A subscriber that attaches to the live stream after any prefix
of published events receives exactly one bootstrap hello message first,
none of the earlier events, and then every event published after
attachment exactly once in publish order: its SSE sequence is hello
followed precisely by the post-attachment events. -/
theorem C5_no_replay (bus0 : List (List Event)) (pre post : List Event) :
    (List.foldl busPublish (busSubscribe (List.foldl busPublish bus0 pre)) post).getLast?
      = some post ∧
    apiSubscriberStream
      ((List.foldl busPublish (busSubscribe (List.foldl busPublish bus0 pre)) post).getLastD [])
      = Wire.hello :: post.map Wire.ev := by
  unfold busSubscribe
  rw [busPublish_foldl]
  constructor
  · simp [List.getLast?_concat]
  · simp [List.getLastD_concat, apiSubscriberStream]

/-! ## Wire encoding (C7) -/

theorem listContains_append (l1 l2 : List Char) (c : Char) :
    (l1 ++ l2).contains c = (l1.contains c || l2.contains c) := by
  induction l1 with
  | nil => simp
  | cons x xs ih => simp [List.contains_cons, ih, Bool.or_assoc]

theorem hasChar_append (a b : String) (c : Char) :
    hasChar (a ++ b) c = (hasChar a c || hasChar b c) := by
  unfold hasChar
  rw [strData_append, listContains_append]

theorem jfield_space (k v : String) : hasChar (jfield k v) ' ' = true := by
  unfold jfield
  simp [hasChar_append, show hasChar ": " ' ' = true from rfl]

theorem jobj_cons_space (f g : String) (rest : List String)
    (h : hasChar f ' ' = true) :
    hasChar (jobj (f :: g :: rest)) ' ' = true := by
  unfold jobj
  simp [joinFields, hasChar_append, h]

/-- C7 counterexample.  The serialized payload of a concrete delivered
control.paused event contains a space character even though none of its
field strings does: json.dumps with default separators puts one space
after every colon and comma, so the encoding is not compact. -/
theorem C7_counterexample :
    hasChar (wireData (Event.controlPaused "2025-01-01T00:00:00Z" none)) ' ' = true ∧
    hasChar "2025-01-01T00:00:00Z" ' ' = false ∧
    hasChar "control.paused" ' ' = false := by
  refine ⟨rfl, rfl, rfl⟩

/-- C7 amended.  Each live-stream message carries one event with fields
exactly as in the data model, but serialized with Python json.dumps
default separators — a space after every name colon and every item
comma — so the encoded payload of every event contains whitespace
rather than being compact. -/
theorem C7_default_separators (ev : Event) : hasChar (wireData ev) ' ' = true := by
  cases ev <;> exact jobj_cons_space _ _ _ (jfield_space _ _)

end VCI
